import Mathlib

/-!
Verification of the plugin-mediated JSON codec pipeline of
`better-json-serializer` (`src/index.ts`), as a shallow embedding.

Modelling conventions:
* JavaScript runtime values are the mutual inductive `JSVal`/`JSList`/`JSFields`.
  Finite numbers are `Int` (no claim depends on fractional values); the three
  non-finite numbers `Infinity`, `-Infinity` and `NaN` are separate
  constructors because the code distinguishes them by strict equality and
  `Number.isNaN`.  A non-standard object (a `Date`, `Set`, ... instance) is
  `ext ctor payload`: `ctor` is its `constructor.name`, `payload` its abstract
  content as seen by a plugin.
* The underlying format layer (`JSON.stringify` / `JSON.parse`) is modelled on
  trees, not text: `stringify` produces the tree the emitted JSON text denotes
  and `parse` consumes such a tree.  The text rendering itself is an external
  bijection between those trees and strings and is not modelled.
* Both traversals take a fuel parameter and are structurally recursive on it,
  so every definition evaluates by kernel reduction.  Fuel exhaustion is the
  model's image of the real code's unbounded recursion (which can in fact
  diverge, e.g. when a plugin's `serialize` returns a value of its own type).
* Exceptions are `Except String`, the string being the thrown error's
  `.message`; `EvalError` re-wrapping in the source concatenates messages and
  is modelled by the same concatenations.
-/

set_option maxRecDepth 20000

namespace BetterJSON

mutual

/-- A JavaScript runtime value, as far as the codec can observe it. -/
inductive JSVal : Type where
  | undefined : JSVal
  | null : JSVal
  | boolean (b : Bool) : JSVal
  | num (x : Int) : JSVal
  | inf : JSVal
  | negInf : JSVal
  | nan : JSVal
  | str (s : String) : JSVal
  | arr (xs : JSList) : JSVal
  | obj (fs : JSFields) : JSVal
  | ext (ctor : String) (payload : JSVal) : JSVal

/-- Array elements, in order. -/
inductive JSList : Type where
  | nil : JSList
  | cons (x : JSVal) (xs : JSList) : JSList

/-- Enumerable own properties of a plain object, in insertion order; keys are
assumed distinct (as they are for objects built by `JSON.parse`). -/
inductive JSFields : Type where
  | nil : JSFields
  | cons (k : String) (v : JSVal) (fs : JSFields) : JSFields

end

/-- A registered plugin (`Plugin` in `src/Plugin.ts`, constructed by
`createPlugin`): a constructor name and a serialize/deserialize pair.  The
functions may throw, which is the `Except.error` branch. -/
structure Plugin where
  name : String
  serialize : String → JSVal → Except String JSVal
  deserialize : String → JSVal → Except String JSVal

/-- The serializer's plugin `Map`, as an association list in insertion order. -/
abbrev PluginsRepository := List (String × Plugin)

/-- `Map.prototype.has` on the plugins repository. -/
def mapHas : PluginsRepository → String → Bool
  | [], _ => false
  | (k, _) :: rest, key => k == key || mapHas rest key

/-- `Map.prototype.get` on the plugins repository. -/
def mapGet : PluginsRepository → String → Option Plugin
  | [], _ => none
  | (k, p) :: rest, key => if k == key then some p else mapGet rest key

/-- `Map.prototype.set` on the plugins repository: replaces in place, or
appends a new entry. -/
def mapSet : PluginsRepository → String → Plugin → PluginsRepository
  | [], key, p => [(key, p)]
  | (k, q) :: rest, key, p =>
      if k == key then (key, p) :: rest else (k, q) :: mapSet rest key p

/-- The `IConfiguration` record of `src/index.ts`. -/
structure IConfiguration where
  allowPluginsOverwrite : Bool
  serializedObjectIdentifier : String
  defaultIndentation : Int

/-- The initial value of `conf` in `BetterJSONSerializer`. -/
def defaultConfiguration : IConfiguration :=
  { allowPluginsOverwrite := false
    serializedObjectIdentifier := "_@serialized-object"
    defaultIndentation := 0 }

/-- The observable state of one `BetterJSONSerializer` instance. -/
structure BetterJSONSerializer where
  conf : IConfiguration
  plugins : PluginsRepository

/-- The message of the error thrown by `use` on a duplicate constructor name. -/
def duplicatePluginMsg (name : String) : String :=
  "Unable to add plugin for '" ++ name ++
    "', a plugin using this constructor name already exist and plugins override is disabled."

/-- `BetterJSONSerializer.use` on a single plugin.  The source mutates
`this.plugins` and throws on a duplicate; the model returns the state after
the call together with the thrown message, if any.  A throw happens before
the `Map.set`, so on error the state is returned unchanged. -/
def use (s : BetterJSONSerializer) (plugin : Plugin) :
    BetterJSONSerializer × Option String :=
  if mapHas s.plugins plugin.name && !s.conf.allowPluginsOverwrite then
    (s, some (duplicatePluginMsg plugin.name))
  else
    ({ s with plugins := mapSet s.plugins plugin.name plugin }, none)

/-- `BetterJSONSerializer.use` on an array of plugins:
`Array.from(plugins).forEach((plugin) => this.use(plugin))`.  A throw inside
`forEach` propagates immediately, so the traversal stops at the first failing
plugin and the registrations made before it are kept. -/
def useMany (s : BetterJSONSerializer) : List Plugin → BetterJSONSerializer × Option String
  | [] => (s, none)
  | p :: ps =>
      match use s p with
      | (s', none) => useMany s' ps
      | (s', some e) => (s', some e)

/-- Test `source === undefined`. -/
def isUndefined : JSVal → Bool
  | .undefined => true
  | _ => false

/-- Test `source === null`. -/
def isNull : JSVal → Bool
  | .null => true
  | _ => false

/-- Test `source === Infinity`.  Strict equality with the positive infinity
only: `-Infinity === Infinity` and `NaN === Infinity` are false. -/
def strictEqInfinity : JSVal → Bool
  | .inf => true
  | _ => false

/-- Test `Number.isNaN(source)`: true exactly on the NaN number value. -/
def numberIsNaN : JSVal → Bool
  | .nan => true
  | _ => false

/-- `source.constructor.name`.  Reading it on `undefined` or `null` would
throw in JavaScript; those cases are unreachable behind the guards in
`classify` and are given a junk value here. -/
def constructorName : JSVal → String
  | .undefined => ""
  | .null => ""
  | .boolean _ => "Boolean"
  | .num _ => "Number"
  | .inf => "Number"
  | .negInf => "Number"
  | .nan => "Number"
  | .str _ => "String"
  | .arr _ => "Array"
  | .obj _ => "Object"
  | .ext c _ => c

/-- The classification cascade of `stringify`'s replacer callback
(src/index.ts lines 212-225), in the source's exact order. -/
def classify (source : JSVal) : String :=
  if isUndefined source then "undefined"
  else if isNull source then "null"
  else if strictEqInfinity source then "infinity"
  else if numberIsNaN source then "nan"
  else constructorName source

mutual

/-- JavaScript `String(v)` coercion, used by template literals in error
messages.  Host objects are shown with the generic object display; the exact
display of values never matters to the claims, only whether a thrown
message's text is preserved. -/
def jsString : JSVal → String
  | .undefined => "undefined"
  | .null => "null"
  | .boolean b => cond b "true" "false"
  | .num x => toString x
  | .inf => "Infinity"
  | .negInf => "-Infinity"
  | .nan => "NaN"
  | .str s => s
  | .arr xs => jsJoin xs
  | .obj _ => "[object Object]"
  | .ext _ _ => "[object Object]"

/-- `Array.prototype.join(",")`, as invoked by `String` on an array. -/
def jsJoin : JSList → String
  | .nil => ""
  | .cons x .nil => jsElem x
  | .cons x (.cons y ys) => jsElem x ++ "," ++ jsJoin (.cons y ys)

/-- One joined element: `null` and `undefined` display as the empty string. -/
def jsElem : JSVal → String
  | .undefined => ""
  | .null => ""
  | .boolean b => cond b "true" "false"
  | .num x => toString x
  | .inf => "Infinity"
  | .negInf => "-Infinity"
  | .nan => "NaN"
  | .str s => s
  | .arr xs => jsJoin xs
  | .obj _ => "[object Object]"
  | .ext _ _ => "[object Object]"

end

/-- A user-supplied replacer or reviver hook; `Except.error` is a throw. -/
abbrev Hook := String → JSVal → Except String JSVal

/-- Message of the `EvalError` thrown when the replacer hook throws
(src/index.ts lines 205-209).  Note that it is built from the key and the raw
value only: the hook's own error message is not included. -/
def replacerErrMsg (key : String) (val : JSVal) : String :=
  "An error occured while calling the replacer function on key='" ++ key ++
    "' and '" ++ jsString val ++ "'."

/-- Message of the `EvalError` thrown when a plugin's `serialize` throws:
the plugin error's message is appended after a blank line. -/
def serializeTypeErrMsg (ctorName msg : String) : String :=
  "Error while serializing type '" ++ ctorName ++ "'.\n\n" ++ msg

/-- Message of the outer `EvalError` wrapped around any `JSON.stringify`
failure. -/
def stringifyErrMsg (msg : String) : String :=
  "Error while stringifying object.\n\n" ++ msg

/-- Message of the `EvalError` thrown when the reviver hook throws
(src/index.ts lines 336-339): built from the key and the already-deserialized
value only; the hook's own error message is not included. -/
def reviverErrMsg (key : String) (val : JSVal) : String :=
  "An error occured while calling the reviver function on key='" ++ key ++
    "' and '" ++ jsString val ++ "'."

/-- Message of the `EvalError` thrown when a plugin's `deserialize` throws:
the plugin error's message is appended after a blank line. -/
def deserializeTypeErrMsg (ctorName msg : String) : String :=
  "Error while deserializing type '" ++ ctorName ++ "'.\n\n" ++ msg

/-- Message of the outer `EvalError` wrapped around any `JSON.parse`
failure. -/
def parseErrMsg (msg : String) : String :=
  "Error while parsing object.\n\n" ++ msg

/-- Message of the error thrown by the `switch (version)` default branch. -/
def unsupportedVersionMsg (version : JSVal) : String :=
  "Unsupported serialization version '" ++ jsString version ++ "'."

/-- Modelling artifact: raised when the fuel of a traversal runs out. -/
def fuelErrMsg : String := "[model] traversal fuel exhausted"

/-- Keep or delete an internalized object member: a member whose callback
result is `undefined` is deleted (ECMA-262 InternalizeJSONProperty). -/
def keepField (k : String) (y : JSVal) (gs : JSFields) : JSFields :=
  match y with
  | .undefined => gs
  | w => .cons k w gs

/-- The serialized-object wrapper with an arbitrary version field:
`[marker]: version/type/value` (cf. `ISerializedObject`). -/
def mkEnvelopeV (marker : String) (version : JSVal) (ctorName : String)
    (serializedValue : JSVal) : JSVal :=
  .obj (.cons marker
    (.obj (.cons "version" version
      (.cons "type" (.str ctorName)
        (.cons "value" serializedValue .nil)))) .nil)

/-- The wrapper `stringify` actually builds (src/index.ts lines 248-254):
version fixed at 1. -/
def mkEnvelope (marker ctorName : String) (serializedValue : JSVal) : JSVal :=
  mkEnvelopeV marker (.num 1) ctorName serializedValue

/-- Application of the optional replacer hook on the raw value, including the
catch block that rethrows with a fresh message (src/index.ts lines 202-210). -/
def applyReplacer (replacer : Option Hook) (key : String) (val : JSVal) :
    Except String JSVal :=
  match replacer with
  | none => .ok val
  | some r =>
      match r key val with
      | .ok w => .ok w
      | .error _ => .error (replacerErrMsg key val)

mutual

/-- One property visit of `JSON.stringify(value, callback, space)` with the
callback built by `BetterJSONSerializer.stringify`: apply the replacer,
classify, look up a plugin, and either pass the value through or wrap the
plugin's output in an envelope; the returned value is then serialized
structurally (with the callback applied to its members in turn). -/
def strNode (s : BetterJSONSerializer) (replacer : Option Hook) :
    Nat → String → JSVal → Except String (Option JSVal)
  | 0, _, _ => .error fuelErrMsg
  | n + 1, key, val =>
      match applyReplacer replacer key val with
      | .error e => .error e
      | .ok source =>
          match mapGet s.plugins (classify source) with
          | none => strRender s replacer n source
          | some matchingPlugin =>
              match matchingPlugin.serialize key source with
              | .error e => .error (serializeTypeErrMsg (classify source) e)
              | .ok serializedValue =>
                  strRender s replacer n
                    (mkEnvelope s.conf.serializedObjectIdentifier
                      (classify source) serializedValue)

/-- What `JSON.stringify` does with a callback result (ECMA-262
SerializeJSONProperty): `undefined` is omitted (`none`), non-finite numbers
render as `null`, arrays and objects are walked recursively, and a host
object with no enumerable own properties renders as an empty object. -/
def strRender (s : BetterJSONSerializer) (replacer : Option Hook) :
    Nat → JSVal → Except String (Option JSVal)
  | 0, _ => .error fuelErrMsg
  | _ + 1, .undefined => .ok none
  | _ + 1, .null => .ok (some .null)
  | _ + 1, .boolean b => .ok (some (.boolean b))
  | _ + 1, .num x => .ok (some (.num x))
  | _ + 1, .inf => .ok (some .null)
  | _ + 1, .negInf => .ok (some .null)
  | _ + 1, .nan => .ok (some .null)
  | _ + 1, .str t => .ok (some (.str t))
  | n + 1, .arr xs =>
      match strArr s replacer n 0 xs with
      | .error e => .error e
      | .ok ys => .ok (some (.arr ys))
  | n + 1, .obj fs =>
      match strObj s replacer n fs with
      | .error e => .error e
      | .ok gs => .ok (some (.obj gs))
  | _ + 1, .ext _ _ => .ok (some (.obj .nil))

/-- Array elements, visited in order with their index as key; an element that
serializes to `undefined` renders as `null`. -/
def strArr (s : BetterJSONSerializer) (replacer : Option Hook) :
    Nat → Nat → JSList → Except String JSList
  | 0, _, _ => .error fuelErrMsg
  | _ + 1, _, .nil => .ok .nil
  | n + 1, i, .cons x xs =>
      match strNode s replacer n (toString i) x with
      | .error e => .error e
      | .ok y =>
          match strArr s replacer n (i + 1) xs with
          | .error e => .error e
          | .ok ys => .ok (.cons (y.getD .null) ys)

/-- Object members, visited in order; a member that serializes to `undefined`
is omitted from the output. -/
def strObj (s : BetterJSONSerializer) (replacer : Option Hook) :
    Nat → JSFields → Except String JSFields
  | 0, _ => .error fuelErrMsg
  | _ + 1, .nil => .ok .nil
  | n + 1, .cons k v fs =>
      match strNode s replacer n k v with
      | .error e => .error e
      | .ok y =>
          match strObj s replacer n fs with
          | .error e => .error e
          | .ok gs =>
              match y with
              | none => .ok gs
              | some w => .ok (.cons k w gs)

end

/-- `BetterJSONSerializer.stringify`: run the traversal from the root (whose
key is `""`) and wrap any failure in the outer `EvalError`.  The result is
the tree denoted by the returned JSON text (`none` when `JSON.stringify`
returns `undefined`); indentation only affects text layout and is not
modelled. -/
def stringify (s : BetterJSONSerializer) (replacer : Option Hook) (fuel : Nat)
    (value : JSVal) : Except String (Option JSVal) :=
  match strNode s replacer fuel "" value with
  | .error e => .error (stringifyErrMsg e)
  | .ok j => .ok j

/-- Test `typeof value === 'object'`. -/
def typeofObject : JSVal → Bool
  | .null => true
  | .arr _ => true
  | .obj _ => true
  | .ext _ _ => true
  | _ => false

/-- Key membership among an array's index properties. -/
def listHasIndex : JSList → Nat → String → Bool
  | .nil, _, _ => false
  | .cons _ xs, i, key => toString i == key || listHasIndex xs (i + 1) key

/-- Key membership among an object's fields. -/
def fieldsHasKey : JSFields → String → Bool
  | .nil, _ => false
  | .cons k _ fs, key => k == key || fieldsHasKey fs key

/-- The `key in value` test, restricted to own enumerable properties (for
arrays: index properties).  Prototype-chain names are not modelled. -/
def hasKey : JSVal → String → Bool
  | .obj fs, key => fieldsHasKey fs key
  | .arr xs, key => listHasIndex xs 0 key
  | _, _ => false

/-- Number of elements of an array value. -/
def listLength : JSList → Nat
  | .nil => 0
  | .cons _ xs => listLength xs + 1

/-- Number of fields of an object value. -/
def fieldsLength : JSFields → Nat
  | .nil => 0
  | .cons _ _ fs => fieldsLength fs + 1

/-- `Object.keys(value).length`. -/
def keysLength : JSVal → Nat
  | .obj fs => fieldsLength fs
  | .arr xs => listLength xs
  | _ => 0

/-- The envelope gate of `parse`'s reviver callback (src/index.ts lines
288-293): the source returns the node raw unless `typeof value === 'object'`,
`value !== null`, the marker key is in `value`, and `Object.keys(value)` has
at most one entry.  This is the conjunction form of the source's negated
disjunction. -/
def isSerializedShape (s : BetterJSONSerializer) (value : JSVal) : Bool :=
  typeofObject value && !isNull value &&
    hasKey value s.conf.serializedObjectIdentifier &&
    !(keysLength value > 1)

/-- Field lookup by key, `undefined` when absent. -/
def fieldsGet : JSFields → String → JSVal
  | .nil, _ => .undefined
  | .cons k v fs, key => if k == key then v else fieldsGet fs key

/-- Array index lookup by key string, `undefined` when absent. -/
def listGetIndex : JSList → Nat → String → JSVal
  | .nil, _, _ => .undefined
  | .cons x xs, i, key => if toString i == key then x else listGetIndex xs (i + 1) key

/-- Property access `value[key]` on own enumerable properties. -/
def getOwnProp : JSVal → String → JSVal
  | .obj fs, key => fieldsGet fs key
  | .arr xs, key => listGetIndex xs 0 key
  | _, _ => .undefined

/-- The destructuring `const { version, type, value } = value[marker]`:
throws a `TypeError` on `null`/`undefined`, otherwise reads the three
properties (missing ones read as `undefined`). -/
def destructure3 (w : JSVal) : Except String (JSVal × JSVal × JSVal) :=
  match w with
  | .undefined => .error "TypeError: Cannot destructure a property of 'undefined'."
  | .null => .error "TypeError: Cannot destructure a property of 'null'."
  | w => .ok (getOwnProp w "version", getOwnProp w "type", getOwnProp w "value")

/-- `this.plugins.get(constructorName)` where `constructorName` is the
envelope's `type` field: a `Map` keyed by strings never matches a non-string
argument. -/
def pluginLookup (plugins : PluginsRepository) : JSVal → Option Plugin
  | .str t => mapGet plugins t
  | _ => none

/-- The `switch (version) { case 1: ... }` test: strict equality with the
number 1. -/
def isVersionOne : JSVal → Bool
  | .num x => x == 1
  | _ => false

/-- The reviver callback `parse` installs into `JSON.parse` (src/index.ts
lines 286-345), applied to one node whose children have already been
internalized: gate on the envelope shape, destructure, look up the plugin
(raw passthrough when absent), check the version, deserialize, and finally
apply the user reviver to the deserialized value. -/
def parseCB (s : BetterJSONSerializer) (reviver : Option Hook) (key : String)
    (value : JSVal) : Except String JSVal :=
  if isSerializedShape s value then
    match destructure3 (getOwnProp value s.conf.serializedObjectIdentifier) with
    | .error e => .error e
    | .ok (version, ctorName, serializedValue) =>
        match pluginLookup s.plugins ctorName with
        | none => .ok serializedValue
        | some matchingPlugin =>
            if isVersionOne version then
              match matchingPlugin.deserialize key serializedValue with
              | .error e => .error (deserializeTypeErrMsg (jsString ctorName) e)
              | .ok d =>
                  match reviver with
                  | none => .ok d
                  | some r =>
                      match r key d with
                      | .ok d2 => .ok d2
                      | .error _ => .error (reviverErrMsg key d)
            else .error (unsupportedVersionMsg version)
  else .ok value

mutual

/-- Bottom-up internalization of `JSON.parse(text, callback)` (ECMA-262
InternalizeJSONProperty): children first, then the callback on the node. -/
def parseNode (s : BetterJSONSerializer) (reviver : Option Hook) :
    Nat → String → JSVal → Except String JSVal
  | 0, _, _ => .error fuelErrMsg
  | n + 1, key, .arr xs =>
      match parseArr s reviver n 0 xs with
      | .error e => .error e
      | .ok ys => parseCB s reviver key (.arr ys)
  | n + 1, key, .obj fs =>
      match parseObj s reviver n fs with
      | .error e => .error e
      | .ok gs => parseCB s reviver key (.obj gs)
  | _ + 1, key, v => parseCB s reviver key v

/-- Array elements, internalized in order with their index as key.  An
element internalized to `undefined` leaves a hole that reads as `undefined`,
kept here as an `undefined` element. -/
def parseArr (s : BetterJSONSerializer) (reviver : Option Hook) :
    Nat → Nat → JSList → Except String JSList
  | 0, _, _ => .error fuelErrMsg
  | _ + 1, _, .nil => .ok .nil
  | n + 1, i, .cons x xs =>
      match parseNode s reviver n (toString i) x with
      | .error e => .error e
      | .ok y =>
          match parseArr s reviver n (i + 1) xs with
          | .error e => .error e
          | .ok ys => .ok (.cons y ys)

/-- Object members, internalized in order; a member internalized to
`undefined` is deleted. -/
def parseObj (s : BetterJSONSerializer) (reviver : Option Hook) :
    Nat → JSFields → Except String JSFields
  | 0, _ => .error fuelErrMsg
  | _ + 1, .nil => .ok .nil
  | n + 1, .cons k v fs =>
      match parseNode s reviver n k v with
      | .error e => .error e
      | .ok y =>
          match parseObj s reviver n fs with
          | .error e => .error e
          | .ok gs => .ok (keepField k y gs)

end

/-- `BetterJSONSerializer.parse`: internalize from the root (key `""`) the
tree denoted by the input text, wrapping any failure in the outer
`EvalError`. -/
def parse (s : BetterJSONSerializer) (reviver : Option Hook) (fuel : Nat)
    (text : JSVal) : Except String JSVal :=
  match parseNode s reviver fuel "" text with
  | .error e => .error (parseErrMsg e)
  | .ok v => .ok v

mutual

/-- Fuel sufficient to visit a value: two units for the node visit and the
render step, plus what its children need. -/
def dV : JSVal → Nat
  | .arr xs => 2 + dL xs
  | .obj fs => 2 + dF fs
  | _ => 2

/-- Fuel sufficient to visit an element list. -/
def dL : JSList → Nat
  | .nil => 1
  | .cons x xs => 1 + max (dV x) (dL xs)

/-- Fuel sufficient to visit a field list. -/
def dF : JSFields → Nat
  | .nil => 1
  | .cons _ v fs => 1 + max (dV v) (dF fs)

end

mutual

/-- A value is plain wire data for serializer `s` when both traversals leave
it untouched: only `null`, booleans, finite numbers, strings, arrays and
objects; no node's classification has a registered plugin; and no object or
array node has the serialized-object shape that `parse` would unwrap. -/
def plainWire (s : BetterJSONSerializer) : JSVal → Bool
  | .null => (mapGet s.plugins "null").isNone
  | .boolean _ => (mapGet s.plugins "Boolean").isNone
  | .num _ => (mapGet s.plugins "Number").isNone
  | .str _ => (mapGet s.plugins "String").isNone
  | .arr xs =>
      (mapGet s.plugins "Array").isNone && !isSerializedShape s (.arr xs) &&
        plainList s xs
  | .obj fs =>
      (mapGet s.plugins "Object").isNone && !isSerializedShape s (.obj fs) &&
        plainFields s fs
  | _ => false

/-- All elements plain. -/
def plainList (s : BetterJSONSerializer) : JSList → Bool
  | .nil => true
  | .cons x xs => plainWire s x && plainList s xs

/-- All field values plain. -/
def plainFields (s : BetterJSONSerializer) : JSFields → Bool
  | .nil => true
  | .cons _ v fs => plainWire s v && plainFields s fs

end

/-- Model of JavaScript object reference semantics for the configuration:
configuration records live in a heap of cells addressed by their index, and
the serializer's own `conf` object is the cell at address 0.  Because
`IConfiguration` is a flat record of scalars, any sequence of field
assignments to one object amounts to overwriting its cell with new record
values, so `writeHeap` covers every mutation a caller can perform. -/
structure ConfigHeap where
  cells : List IConfiguration

/-- The field values currently stored in the serializer's own configuration
object (cell 0). -/
def storedConf (h : ConfigHeap) : IConfiguration :=
  h.cells.headD defaultConfiguration

/-- `getConfig()` with no argument: `return { ...this.conf }`.  The spread
allocates a fresh object whose fields are copied from `this.conf`; the model
appends the copy as a new cell and returns its address. -/
def getConfigSnapshot (h : ConfigHeap) : ConfigHeap × Nat :=
  ({ cells := h.cells ++ [storedConf h] }, h.cells.length)

/-- Overwrite the cell at an address; out-of-range writes are dropped. -/
def setAt : List IConfiguration → Nat → IConfiguration → List IConfiguration
  | [], _, _ => []
  | _ :: rest, 0, c => c :: rest
  | x :: rest, n + 1, c => x :: setAt rest n c

/-- A mutation of the configuration object at address `a`. -/
def writeHeap (h : ConfigHeap) (a : Nat) (c : IConfiguration) : ConfigHeap :=
  { cells := setAt h.cells a c }

/-- A heap holding just the serializer's own configuration object. -/
def heap0 : ConfigHeap :=
  { cells := [defaultConfiguration] }

/-- An arbitrary configuration record used as a mutation in examples. -/
def mutatedConfig : IConfiguration :=
  { allowPluginsOverwrite := true
    serializedObjectIdentifier := "changed"
    defaultIndentation := 9 }

/-- A serializer with an empty plugin repository and default configuration. -/
def emptySerializer : BetterJSONSerializer :=
  { conf := defaultConfiguration, plugins := [] }

/-- A well-behaved plugin for booleans: encodes to a one-letter string and
decodes it back; `deserialize` inverts `serialize` on every boolean. -/
def boolPlugin : Plugin :=
  { name := "Boolean"
    serialize := fun _ v =>
      .ok (match v with | .boolean true => .str "T" | _ => .str "F")
    deserialize := fun _ w =>
      .ok (match w with | .str "T" => .boolean true | _ => .boolean false) }

/-- A serializer with only `boolPlugin` registered. -/
def boolS : BetterJSONSerializer :=
  { conf := defaultConfiguration, plugins := [("Boolean", boolPlugin)] }

/-- A plugin satisfying `deserialize (serialize v) = v` at the booleans it
owns, whose encode output is however not representable by the format layer:
`true` encodes to `NaN`, which the format renders as `null`. -/
def nanBoolPlugin : Plugin :=
  { name := "Boolean"
    serialize := fun _ v =>
      .ok (match v with | .boolean true => .nan | _ => .null)
    deserialize := fun _ w =>
      .ok (match w with | .nan => .boolean true | _ => .boolean false) }

/-- A serializer with only `nanBoolPlugin` registered. -/
def nanBoolS : BetterJSONSerializer :=
  { conf := defaultConfiguration, plugins := [("Boolean", nanBoolPlugin)] }

/-- A plugin whose `serialize` and `deserialize` both throw. -/
def failPlugin : Plugin :=
  { name := "F"
    serialize := fun _ _ => .error "ENCBOOM"
    deserialize := fun _ _ => .error "DECBOOM" }

/-- A serializer with only `failPlugin` registered. -/
def failS : BetterJSONSerializer :=
  { conf := defaultConfiguration, plugins := [("F", failPlugin)] }

/-- First plugin registered under the constructor name `A`. -/
def pluginA1 : Plugin :=
  { name := "A"
    serialize := fun _ _ => .ok (.str "a1")
    deserialize := fun _ _ => .ok .null }

/-- Second, different plugin for the same constructor name `A`. -/
def pluginA2 : Plugin :=
  { name := "A"
    serialize := fun _ _ => .ok (.str "a2")
    deserialize := fun _ _ => .ok .null }

/-- A plugin for the constructor name `B`. -/
def pluginB1 : Plugin :=
  { name := "B"
    serialize := fun _ _ => .ok (.str "b1")
    deserialize := fun _ _ => .ok .null }

/-- A serializer that already has `pluginA1` registered, with the overwrite
policy disabled. -/
def sWithA : BetterJSONSerializer :=
  { conf := defaultConfiguration, plugins := [("A", pluginA1)] }

/-- A serializer that already has `pluginA1` registered, with the overwrite
policy enabled. -/
def sOverwrite : BetterJSONSerializer :=
  { conf := { defaultConfiguration with allowPluginsOverwrite := true }
    plugins := [("A", pluginA1)] }

/-- A hook that always throws with the message `BOOM`. -/
def boomHook : Hook := fun _ _ => .error "BOOM"

/-- Whether `pat` starts the character list `l`. -/
def startsWithChars : List Char → List Char → Bool
  | [], _ => true
  | _ :: _, [] => false
  | c :: cs, d :: ds => c == d && startsWithChars cs ds

/-- Whether `pat` occurs contiguously anywhere inside `l`. -/
def containsChars (pat : List Char) : List Char → Bool
  | [] => startsWithChars pat []
  | d :: ds => startsWithChars pat (d :: ds) || containsChars pat ds

/-- The observable boolean content of a value (`false` for non-booleans). -/
def boolObs : JSVal → Bool
  | .boolean b => b
  | _ => false

/-- A reviver hook that replaces every value it is called on by a marker
string, making its call sites observable. -/
def markHook : Hook := fun _ _ => .ok (.str "revived")

/-- Plain wire data never includes `undefined`. -/
theorem plainWire_defined (s : BetterJSONSerializer) (v : JSVal)
    (h : plainWire s v = true) : isUndefined v = false := by
  cases v <;> simp [plainWire, isUndefined] at h ⊢

/-- A member whose internalized value is defined is kept. -/
theorem keepField_of_defined (k : String) (y : JSVal) (gs : JSFields)
    (h : isUndefined y = false) : keepField k y gs = .cons k y gs := by
  cases y <;> simp [keepField, isUndefined] at h ⊢

theorem classify_undef : classify .undefined = "undefined" := rfl

theorem classify_null : classify .null = "null" := rfl

theorem classify_inf : classify .inf = "infinity" := rfl

theorem classify_negInf : classify .negInf = "Number" := rfl

theorem classify_nan : classify .nan = "nan" := rfl

theorem classify_boolean (b : Bool) : classify (.boolean b) = "Boolean" := rfl

theorem classify_num (x : Int) : classify (.num x) = "Number" := rfl

theorem classify_str (t : String) : classify (.str t) = "String" := rfl

theorem classify_arr (xs : JSList) : classify (.arr xs) = "Array" := rfl

theorem classify_obj (fs : JSFields) : classify (.obj fs) = "Object" := rfl

theorem classify_ext (c : String) (p : JSVal) : classify (.ext c p) = c := rfl

/-- Plain stringify passthrough: on plain wire data with no replacer, the
traversal of `stringify` returns the value itself, given enough fuel. -/
theorem strPlain (s : BetterJSONSerializer) : ∀ n : Nat,
    (∀ v k, plainWire s v = true → dV v ≤ n →
        strNode s none n k v = Except.ok (some v)) ∧
    (∀ xs i, plainList s xs = true → dL xs ≤ n →
        strArr s none n i xs = Except.ok xs) ∧
    (∀ fs, plainFields s fs = true → dF fs ≤ n →
        strObj s none n fs = Except.ok fs) := by
  intro n
  induction n using Nat.strong_induction_on with
  | _ n ih =>
    refine ⟨fun v k hp hd => ?_, fun xs i hp hd => ?_, fun fs hp hd => ?_⟩
    · cases n with
      | zero => cases v <;> simp [dV] at hd
      | succ n =>
        cases v with
        | undefined => simp [plainWire] at hp
        | inf => simp [plainWire] at hp
        | negInf => simp [plainWire] at hp
        | nan => simp [plainWire] at hp
        | ext c p => simp [plainWire] at hp
        | null =>
          simp only [plainWire, Option.isNone_iff_eq_none] at hp
          obtain ⟨m, rfl⟩ : ∃ m, n = m + 1 := ⟨n - 1, by simp [dV] at hd; omega⟩
          simp [strNode, applyReplacer, classify_null, hp, strRender]
        | boolean b =>
          simp only [plainWire, Option.isNone_iff_eq_none] at hp
          obtain ⟨m, rfl⟩ : ∃ m, n = m + 1 := ⟨n - 1, by simp [dV] at hd; omega⟩
          simp [strNode, applyReplacer, classify_boolean, hp, strRender]
        | num x =>
          simp only [plainWire, Option.isNone_iff_eq_none] at hp
          obtain ⟨m, rfl⟩ : ∃ m, n = m + 1 := ⟨n - 1, by simp [dV] at hd; omega⟩
          simp [strNode, applyReplacer, classify_num, hp, strRender]
        | str t =>
          simp only [plainWire, Option.isNone_iff_eq_none] at hp
          obtain ⟨m, rfl⟩ : ∃ m, n = m + 1 := ⟨n - 1, by simp [dV] at hd; omega⟩
          simp [strNode, applyReplacer, classify_str, hp, strRender]
        | arr xs =>
          simp only [plainWire, Bool.and_eq_true, Option.isNone_iff_eq_none] at hp
          obtain ⟨⟨hA, _⟩, hxs⟩ := hp
          simp only [dV] at hd
          obtain ⟨m, rfl⟩ : ∃ m, n = m + 1 := ⟨n - 1, by omega⟩
          have hArr := (ih m (by omega)).2.1 xs 0 hxs (by omega)
          simp [strNode, applyReplacer, classify_arr, hA, strRender, hArr]
        | obj fs =>
          simp only [plainWire, Bool.and_eq_true, Option.isNone_iff_eq_none] at hp
          obtain ⟨⟨hO, _⟩, hfs⟩ := hp
          simp only [dV] at hd
          obtain ⟨m, rfl⟩ : ∃ m, n = m + 1 := ⟨n - 1, by omega⟩
          have hObj := (ih m (by omega)).2.2 fs hfs (by omega)
          simp [strNode, applyReplacer, classify_obj, hO, strRender, hObj]
    · cases n with
      | zero => cases xs <;> simp [dL] at hd
      | succ n =>
        cases xs with
        | nil => simp [strArr]
        | cons x xs =>
          simp only [plainList, Bool.and_eq_true] at hp
          simp only [dL] at hd
          have h1 := (ih n (by omega)).1 x (toString i) hp.1 (by omega)
          have h2 := (ih n (by omega)).2.1 xs (i + 1) hp.2 (by omega)
          simp [strArr, h1, h2]
    · cases n with
      | zero => cases fs <;> simp [dF] at hd
      | succ n =>
        cases fs with
        | nil => simp [strObj]
        | cons k v fs =>
          simp only [plainFields, Bool.and_eq_true] at hp
          simp only [dF] at hd
          have h1 := (ih n (by omega)).1 v k hp.1 (by omega)
          have h2 := (ih n (by omega)).2.2 fs hp.2 (by omega)
          simp [strObj, h1, h2]

/-- Plain parse passthrough: on plain wire data the internalization of
`parse` returns the value itself, for any reviver hook (non-envelope nodes
never reach the reviver), given enough fuel. -/
theorem parsePlain (s : BetterJSONSerializer) : ∀ n : Nat,
    (∀ v k (rev : Option Hook), plainWire s v = true → dV v ≤ n →
        parseNode s rev n k v = Except.ok v) ∧
    (∀ xs i (rev : Option Hook), plainList s xs = true → dL xs ≤ n →
        parseArr s rev n i xs = Except.ok xs) ∧
    (∀ fs (rev : Option Hook), plainFields s fs = true → dF fs ≤ n →
        parseObj s rev n fs = Except.ok fs) := by
  intro n
  induction n using Nat.strong_induction_on with
  | _ n ih =>
    refine ⟨fun v k rev hp hd => ?_, fun xs i rev hp hd => ?_,
      fun fs rev hp hd => ?_⟩
    · cases n with
      | zero => cases v <;> simp [dV] at hd
      | succ n =>
        cases v with
        | undefined => simp [plainWire] at hp
        | inf => simp [plainWire] at hp
        | negInf => simp [plainWire] at hp
        | nan => simp [plainWire] at hp
        | ext c p => simp [plainWire] at hp
        | null => simp [parseNode, parseCB, isSerializedShape, typeofObject, isNull]
        | boolean b => simp [parseNode, parseCB, isSerializedShape, typeofObject]
        | num x => simp [parseNode, parseCB, isSerializedShape, typeofObject]
        | str t => simp [parseNode, parseCB, isSerializedShape, typeofObject]
        | arr xs =>
          simp only [plainWire, Bool.and_eq_true, Bool.not_eq_true',
            Option.isNone_iff_eq_none] at hp
          obtain ⟨⟨_, hshape⟩, hxs⟩ := hp
          simp only [dV] at hd
          have hArr := (ih n (by omega)).2.1 xs 0 rev hxs (by omega)
          simp [parseNode, hArr, parseCB, hshape]
        | obj fs =>
          simp only [plainWire, Bool.and_eq_true, Bool.not_eq_true',
            Option.isNone_iff_eq_none] at hp
          obtain ⟨⟨_, hshape⟩, hfs⟩ := hp
          simp only [dV] at hd
          have hObj := (ih n (by omega)).2.2 fs rev hfs (by omega)
          simp [parseNode, hObj, parseCB, hshape]
    · cases n with
      | zero => cases xs <;> simp [dL] at hd
      | succ n =>
        cases xs with
        | nil => simp [parseArr]
        | cons x xs =>
          simp only [plainList, Bool.and_eq_true] at hp
          simp only [dL] at hd
          have h1 := (ih n (by omega)).1 x (toString i) rev hp.1 (by omega)
          have h2 := (ih n (by omega)).2.1 xs (i + 1) rev hp.2 (by omega)
          simp [parseArr, h1, h2]
    · cases n with
      | zero => cases fs <;> simp [dF] at hd
      | succ n =>
        cases fs with
        | nil => simp [parseObj]
        | cons k v fs =>
          simp only [plainFields, Bool.and_eq_true] at hp
          simp only [dF] at hd
          have h1 := (ih n (by omega)).1 v k rev hp.1 (by omega)
          have h2 := (ih n (by omega)).2.2 fs rev hp.2 (by omega)
          have h3 := keepField_of_defined k v fs (plainWire_defined s v hp.1)
          simp [parseObj, h1, h2, h3]

/-- After `mapSet`, the key maps to the newly set plugin. -/
theorem mapGet_mapSet_self (l : PluginsRepository) (key : String) (p : Plugin) :
    mapGet (mapSet l key p) key = some p := by
  induction l with
  | nil => simp [mapSet, mapGet]
  | cons kq rest ih =>
    obtain ⟨k, q⟩ := kq
    by_cases h : k == key
    · simp [mapSet, mapGet, h]
    · simp only [mapSet, mapGet, h]
      simpa [h] using ih

/-- Rendering an already-built envelope with no replacer installed: provided
no plugin claims the envelope's own scaffolding (`Object`, `Number`,
`String`) and the payload is plain wire data, the envelope serializes to
itself. -/
theorem strEnvelope (s : BetterJSONSerializer) (marker t : String)
    (payload : JSVal) (m : Nat)
    (hObj : mapGet s.plugins "Object" = none)
    (hNum : mapGet s.plugins "Number" = none)
    (hStr : mapGet s.plugins "String" = none)
    (hplain : plainWire s payload = true)
    (hm : dV payload ≤ m) :
    strRender s none (m + 8) (mkEnvelope marker t payload) =
      Except.ok (some (mkEnvelope marker t payload)) := by
  have hv : ∀ (j : Nat) (k' : String),
      strNode s none (j + 2) k' (.num 1) = Except.ok (some (.num 1)) := by
    intro j k'
    simp [strNode, applyReplacer, classify_num, hNum, strRender]
  have ht : ∀ (j : Nat) (k' : String),
      strNode s none (j + 2) k' (.str t) = Except.ok (some (.str t)) := by
    intro j k'
    simp [strNode, applyReplacer, classify_str, hStr, strRender]
  have h1 : strNode s none (m + 1) "value" payload = Except.ok (some payload) :=
    (strPlain s (m + 1)).1 payload "value" hplain (by omega)
  have hrin : strRender s none (m + 5)
      (.obj (.cons "version" (.num 1)
        (.cons "type" (.str t) (.cons "value" payload .nil)))) =
      Except.ok (some (.obj (.cons "version" (.num 1)
        (.cons "type" (.str t) (.cons "value" payload .nil))))) := by
    simp [strRender, strObj, hv, ht, h1]
  have hinner : strNode s none (m + 6) marker
      (.obj (.cons "version" (.num 1)
        (.cons "type" (.str t) (.cons "value" payload .nil)))) =
      Except.ok (some (.obj (.cons "version" (.num 1)
        (.cons "type" (.str t) (.cons "value" payload .nil))))) := by
    simp [strNode, applyReplacer, classify_obj, hObj, hrin]
  simp [mkEnvelope, mkEnvelopeV, strRender, strObj, hinner]

/-- Step equation of `parseNode` on an object node, in guarded form. -/
theorem parseNode_obj (s : BetterJSONSerializer) (rev : Option Hook) (n : Nat)
    (key : String) (fs : JSFields) :
    parseNode s rev (n + 1) key (.obj fs) =
      (match parseObj s rev n fs with
       | .error e => .error e
       | .ok gs => parseCB s rev key (.obj gs)) := rfl

/-- Step equation of `parseObj` on a member, in guarded form. -/
theorem parseObj_cons (s : BetterJSONSerializer) (rev : Option Hook) (n : Nat)
    (k : String) (v : JSVal) (fs : JSFields) :
    parseObj s rev (n + 1) (.cons k v fs) =
      (match parseNode s rev n k v with
       | .error e => .error e
       | .ok y =>
          match parseObj s rev n fs with
          | .error e => .error e
          | .ok gs => .ok (keepField k y gs)) := rfl

/-- Step equation of `parseObj` on the empty field list. -/
theorem parseObj_nil (s : BetterJSONSerializer) (rev : Option Hook) (n : Nat) :
    parseObj s rev (n + 1) .nil = .ok .nil := rfl

/-- Internalizing an envelope node whose version is a number and whose
payload is plain wire data: the children internalize to themselves and the
node's value is whatever the reviver callback makes of the envelope. -/
theorem parseEnvelopeNode (s : BetterJSONSerializer) (rev : Option Hook)
    (marker t : String) (ver : Int) (payload : JSVal) (k : String) (m : Nat)
    (hplain : plainWire s payload = true)
    (hm : dV payload ≤ m) :
    parseNode s rev (m + 8) k (mkEnvelopeV marker (.num ver) t payload) =
      parseCB s rev k (mkEnvelopeV marker (.num ver) t payload) := by
  have hv : ∀ (j : Nat) (k' : String),
      parseNode s rev (j + 1) k' (.num ver) = Except.ok (.num ver) := by
    intro j k'
    simp [parseNode, parseCB, isSerializedShape, typeofObject]
  have ht : ∀ (j : Nat) (k' : String),
      parseNode s rev (j + 1) k' (.str t) = Except.ok (.str t) := by
    intro j k'
    simp [parseNode, parseCB, isSerializedShape, typeofObject]
  have h1 : parseNode s rev (m + 2) "value" payload = Except.ok payload :=
    (parsePlain s (m + 2)).1 payload "value" rev hplain (by omega)
  have hkeep := keepField_of_defined "value" payload JSFields.nil
    (plainWire_defined s payload hplain)
  have hin : parseNode s rev (m + 6) marker
      (.obj (.cons "version" (.num ver)
        (.cons "type" (.str t) (.cons "value" payload .nil)))) =
      Except.ok (.obj (.cons "version" (.num ver)
        (.cons "type" (.str t) (.cons "value" payload .nil)))) := by
    have hcb : parseCB s rev marker
        (.obj (.cons "version" (.num ver)
          (.cons "type" (.str t) (.cons "value" payload .nil)))) =
        Except.ok (.obj (.cons "version" (.num ver)
          (.cons "type" (.str t) (.cons "value" payload .nil)))) := by
      simp [parseCB, isSerializedShape, keysLength, fieldsLength]
    simp only [parseNode_obj, parseObj_cons, parseObj_nil, hv, ht, h1, hkeep]
    simp [keepField, hcb]
  simp only [mkEnvelopeV, parseNode_obj, parseObj_cons, parseObj_nil, hin]
  simp [keepField, mkEnvelopeV]

/-- What the reviver callback does on a well-formed envelope node: gate
passes, the three fields are destructured, and the outcome depends on the
plugin lookup, the version, the plugin's `deserialize` and the user
reviver. -/
theorem parseCB_envelope (s : BetterJSONSerializer) (rev : Option Hook)
    (k : String) (ver : JSVal) (t : String) (w : JSVal) :
    parseCB s rev k (mkEnvelopeV s.conf.serializedObjectIdentifier ver t w) =
      (match mapGet s.plugins t with
       | none => Except.ok w
       | some matchingPlugin =>
          if isVersionOne ver then
            match matchingPlugin.deserialize k w with
            | .error e => .error (deserializeTypeErrMsg t e)
            | .ok d =>
                match rev with
                | none => .ok d
                | some r =>
                    match r k d with
                    | .ok d2 => .ok d2
                    | .error _ => .error (reviverErrMsg k d)
          else Except.error (unsupportedVersionMsg ver)) := by
  simp [parseCB, mkEnvelopeV, isSerializedShape, typeofObject, isNull, hasKey,
    fieldsHasKey, keysLength, fieldsLength, getOwnProp, fieldsGet,
    destructure3, pluginLookup, jsString]

/-- Step equation of `strNode`, in guarded form. -/
theorem strNode_succ (s : BetterJSONSerializer) (rep : Option Hook) (n : Nat)
    (key : String) (val : JSVal) :
    strNode s rep (n + 1) key val =
      (match applyReplacer rep key val with
       | .error e => .error e
       | .ok source =>
          match mapGet s.plugins (classify source) with
          | none => strRender s rep n source
          | some matchingPlugin =>
              match matchingPlugin.serialize key source with
              | .error e => .error (serializeTypeErrMsg (classify source) e)
              | .ok serializedValue =>
                  strRender s rep n
                    (mkEnvelope s.conf.serializedObjectIdentifier
                      (classify source) serializedValue)) := rfl

/-- Writing above address 0 does not change the head cell. -/
theorem headD_setAt (l : List IConfiguration) (n : Nat) (c d : IConfiguration) :
    (setAt l (n + 1) c).headD d = l.headD d := by
  cases l <;> simp [setAt]

/-- A fold of mutations at a nonzero address never changes the stored
configuration. -/
theorem storedConf_foldWrite (ws : List IConfiguration) :
    ∀ (h : ConfigHeap) (a : Nat), a ≠ 0 →
      storedConf (ws.foldl (fun acc c => writeHeap acc a c) h) = storedConf h := by
  induction ws with
  | nil => intro h a _; rfl
  | cons w ws ih =>
    intro h a ha
    obtain ⟨b, rfl⟩ : ∃ b, a = b + 1 := ⟨a - 1, by omega⟩
    simp only [List.foldl_cons]
    rw [ih _ (b + 1) ha]
    simp only [storedConf, writeHeap]
    exact headD_setAt h.cells b w defaultConfiguration

/-- The head of an appended list is the head of the first part when that part
is nonempty. -/
theorem headD_append_left (l l2 : List IConfiguration) (d : IConfiguration)
    (hl : l ≠ []) : (l ++ l2).headD d = l.headD d := by
  cases l with
  | nil => exact absurd rfl hl
  | cons x xs => simp

/-- C3 counterexample: negative infinity is classified as the generic number
constructor name, not as `infinity`, because the source tests strict equality
with positive `Infinity` only. -/
theorem C3_counterexample :
    classify JSVal.negInf = "Number" ∧
    (classify JSVal.negInf == "infinity") = false :=
  ⟨rfl, rfl⟩

/-- C3 (amended): the classification cascade maps `undefined`, `null`,
positive infinity and NaN to their special identifiers in that order, and
every other value — including negative infinity — to its runtime constructor
name; only positive `Infinity` yields `"infinity"`. -/
theorem C3_classification_cascade :
    classify JSVal.undefined = "undefined" ∧
    classify JSVal.null = "null" ∧
    classify JSVal.inf = "infinity" ∧
    classify JSVal.nan = "nan" ∧
    classify JSVal.negInf = "Number" ∧
    (∀ b, classify (JSVal.boolean b) = "Boolean") ∧
    (∀ x, classify (JSVal.num x) = "Number") ∧
    (∀ u, classify (JSVal.str u) = "String") ∧
    (∀ xs, classify (JSVal.arr xs) = "Array") ∧
    (∀ fs, classify (JSVal.obj fs) = "Object") ∧
    (∀ c p, classify (JSVal.ext c p) = c) :=
  ⟨rfl, rfl, rfl, rfl, rfl, fun _ => rfl, fun _ => rfl, fun _ => rfl,
    fun _ => rfl, fun _ => rfl, fun _ _ => rfl⟩

/-- C4: registering a plugin whose constructor name is already present
throws with the registry unchanged when overwriting is disabled; with
overwriting enabled the registration succeeds, the new plugin replaces the
old one under that name, and a subsequent encode of a value classified under
that name dispatches to the new plugin. -/
theorem C4_duplicate_registration_policy (s : BetterJSONSerializer) (p : Plugin) :
    (mapHas s.plugins p.name = true → s.conf.allowPluginsOverwrite = false →
        use s p = (s, some (duplicatePluginMsg p.name))) ∧
    (s.conf.allowPluginsOverwrite = true →
        use s p = ({ s with plugins := mapSet s.plugins p.name p }, none) ∧
        mapGet (mapSet s.plugins p.name p) p.name = some p) ∧
    (∀ (n : Nat) (k : String) (v e : JSVal),
        classify v = p.name → p.serialize k v = Except.ok e →
        strNode { s with plugins := mapSet s.plugins p.name p } none (n + 1) k v =
          strRender { s with plugins := mapSet s.plugins p.name p } none n
            (mkEnvelope s.conf.serializedObjectIdentifier p.name e)) := by
  refine ⟨fun h1 h2 => ?_, fun h => ⟨?_, ?_⟩, fun n k v e hcv hse => ?_⟩
  · simp [use, h1, h2]
  · simp [use, h]
  · exact mapGet_mapSet_self s.plugins p.name p
  · rw [strNode_succ]
    simp [applyReplacer, hcv, mapGet_mapSet_self, hse]

/-- C4 witness: with `pluginA1` registered under `A`, registering `pluginA2`
fails and changes nothing when overwrite is disabled, and replaces
`pluginA1` when it is enabled. -/
theorem C4_witness :
    use sWithA pluginA2 = (sWithA, some (duplicatePluginMsg "A")) ∧
    use sOverwrite pluginA2 =
      ({ sOverwrite with plugins := mapSet sOverwrite.plugins "A" pluginA2 }, none) ∧
    mapGet (mapSet sOverwrite.plugins "A" pluginA2) "A" = some pluginA2 :=
  ⟨(C4_duplicate_registration_policy sWithA pluginA2).1 rfl rfl,
    ((C4_duplicate_registration_policy sOverwrite pluginA2).2.1 rfl).1,
    ((C4_duplicate_registration_policy sOverwrite pluginA2).2.1 rfl).2⟩

/-- C6: a node is dispatched to the envelope-unwrapping branch only when it
is a non-null object value that contains the marker key with no other
property; any node failing one of those conditions — a non-object, `null`,
an object without the marker, or an object with the marker plus extra
sibling keys — is returned unchanged, and an object that passes the gate
consists of exactly the marker property. -/
theorem C6_envelope_gate (s : BetterJSONSerializer) (rev : Option Hook)
    (k : String) (v : JSVal)
    (h : typeofObject v = false ∨ v = JSVal.null ∨
        hasKey v s.conf.serializedObjectIdentifier = false ∨ keysLength v > 1) :
    parseCB s rev k v = Except.ok v ∧
    (∀ fs, isSerializedShape s (JSVal.obj fs) = true →
        ∃ w, fs = JSFields.cons s.conf.serializedObjectIdentifier w JSFields.nil) := by
  constructor
  · have hshape : isSerializedShape s v = false := by
      rcases h with h | h | h | h
      · simp [isSerializedShape, h]
      · subst h; simp [isSerializedShape, isNull]
      · simp [isSerializedShape, h]
      · simp [isSerializedShape, h]
    simp [parseCB, hshape]
  · intro fs hsh
    simp only [isSerializedShape, typeofObject, isNull, hasKey, keysLength,
      Bool.and_eq_true, Bool.not_eq_true', decide_eq_false_iff_not] at hsh
    obtain ⟨⟨_, hkey⟩, hlen⟩ := hsh
    cases fs with
    | nil => simp [fieldsHasKey] at hkey
    | cons k1 v1 rest =>
      cases rest with
      | nil =>
        have hk1 : k1 = s.conf.serializedObjectIdentifier := by
          simpa [fieldsHasKey] using hkey
        exact ⟨v1, by rw [hk1]⟩
      | cons k2 v2 rest2 => simp [fieldsLength] at hlen

/-- C6 witness: an object carrying the marker key together with a sibling
key is not treated as an envelope, and a number node passes through. -/
theorem C6_witness :
    parseCB emptySerializer (some markHook) "k"
      (JSVal.obj (JSFields.cons "_@serialized-object" (JSVal.str "a")
        (JSFields.cons "other" (JSVal.str "b") JSFields.nil))) =
      Except.ok (JSVal.obj (JSFields.cons "_@serialized-object" (JSVal.str "a")
        (JSFields.cons "other" (JSVal.str "b") JSFields.nil))) ∧
    parseCB emptySerializer (some markHook) "k" (JSVal.num 7) =
      Except.ok (JSVal.num 7) :=
  ⟨(C6_envelope_gate emptySerializer (some markHook) "k" _
      (Or.inr (Or.inr (Or.inr (by decide))))).1,
    (C6_envelope_gate emptySerializer (some markHook) "k" _
      (Or.inl (by decide))).1⟩

/-- C7: the no-argument configuration getter returns a copy, not a live
reference — after any sequence of mutations of the returned snapshot object,
the stored configuration is unchanged. -/
theorem C7_getConfig_returns_copy (h : ConfigHeap) (hne : h.cells ≠ [])
    (ws : List IConfiguration) :
    storedConf (ws.foldl
      (fun acc c => writeHeap acc (getConfigSnapshot h).2 c)
      (getConfigSnapshot h).1) = storedConf h := by
  have ha : (getConfigSnapshot h).2 ≠ 0 := by
    simp only [getConfigSnapshot]
    intro hz
    exact hne (List.length_eq_zero.mp hz)
  rw [storedConf_foldWrite ws _ _ ha]
  simp only [getConfigSnapshot, storedConf]
  cases hc : h.cells with
  | nil => exact absurd hc hne
  | cons x xs => simp

/-- C7 witness: mutating the snapshot returned over a singleton heap leaves
the stored configuration at its default values. -/
theorem C7_witness :
    storedConf ([mutatedConfig].foldl
      (fun acc c => writeHeap acc (getConfigSnapshot heap0).2 c)
      (getConfigSnapshot heap0).1) = storedConf heap0 :=
  C7_getConfig_returns_copy heap0 (by simp [heap0]) [mutatedConfig]

/-- Helper for C10: if the batch prefix registers cleanly and the next plugin
fails, the whole batch call ends in the failing plugin's error with exactly
the prefix state. -/
theorem useMany_append_fail (ps : List Plugin) :
    ∀ (s s1 : BetterJSONSerializer) (p : Plugin) (qs : List Plugin) (e : String),
      useMany s ps = (s1, none) → use s1 p = (s1, some e) →
      useMany s (ps ++ p :: qs) = (s1, some e) := by
  induction ps with
  | nil =>
    intro s s1 p qs e h1 h2
    have hs : s = s1 := congrArg Prod.fst h1
    subst hs
    simp [useMany, h2]
  | cons q ps ih =>
    intro s s1 p qs e h1 h2
    rcases hq : use s q with ⟨s', r⟩
    cases r with
    | none =>
      have h1' : useMany s' ps = (s1, none) := by
        simpa [useMany, hq] using h1
      simpa [useMany, hq] using ih s' s1 p qs e h1' h2
    | some e' =>
      rw [useMany, hq] at h1
      simp at h1

/-- C10: an array of plugins is registered one at a time in array order; when
one of them fails (for example a duplicate name with overwriting disabled),
the plugins registered before it stay registered — the batch is not rolled
back, and the failing plugin's error is raised. -/
theorem C10_batch_not_rolled_back (s s1 : BetterJSONSerializer)
    (ps qs : List Plugin) (p q : Plugin) (s' : BetterJSONSerializer) (e : String) :
    (use s q = (s', none) → useMany s (q :: ps) = useMany s' ps) ∧
    (useMany s ps = (s1, none) → use s1 p = (s1, some e) →
        useMany s (ps ++ p :: qs) = (s1, some e)) := by
  constructor
  · intro hq
    rw [useMany, hq]
  · intro h1 h2
    exact useMany_append_fail ps s s1 p qs e h1 h2

/-- C10 witness: registering `[A1, A2, B1]` on an empty serializer with
overwriting disabled fails at the duplicate `A2`, keeps `A1` registered, and
never registers `B1`. -/
theorem C10_witness :
    useMany emptySerializer [pluginA1, pluginA2, pluginB1] =
      (sWithA, some (duplicatePluginMsg "A")) ∧
    mapGet sWithA.plugins "A" = some pluginA1 ∧
    mapGet sWithA.plugins "B" = none :=
  ⟨(C10_batch_not_rolled_back emptySerializer sWithA [pluginA1] [pluginB1]
      pluginA2 pluginA1 sWithA (duplicatePluginMsg "A")).2 rfl rfl,
    rfl, rfl⟩

/-- C2 counterexample: a hand-crafted envelope with version 2 whose type has
no registered plugin does not raise any error — `parse` returns the raw
inner value, because the plugin lookup (with its raw-value early return)
happens before the version switch. -/
theorem C2_counterexample :
    mapGet emptySerializer.plugins "Foo" = none ∧
    parse emptySerializer none 10
      (mkEnvelopeV "_@serialized-object" (JSVal.num 2) "Foo" (JSVal.str "x")) =
      Except.ok (JSVal.str "x") :=
  ⟨rfl, rfl⟩

/-- C2 (amended): an envelope whose version number is not 1 makes `parse`
raise the unsupported-version error, aborting the whole parse — but only
when a plugin for the envelope's type is registered; with no plugin the
envelope degrades to its raw inner value before the version is examined. -/
theorem C2_version_gate_requires_plugin (s : BetterJSONSerializer)
    (rev : Option Hook) (p : Plugin) (t : String) (ver w wp : JSVal)
    (k : String) (mv : Int) (n : Nat)
    (hp : mapGet s.plugins t = some p)
    (hver : isVersionOne ver = false)
    (hmv : (mv == 1) = false)
    (hplain : plainWire s wp = true)
    (hn : dV wp + 8 ≤ n) :
    parseCB s rev k (mkEnvelopeV s.conf.serializedObjectIdentifier ver t w) =
      Except.error (unsupportedVersionMsg ver) ∧
    parse s rev n (mkEnvelopeV s.conf.serializedObjectIdentifier (JSVal.num mv) t wp) =
      Except.error (parseErrMsg (unsupportedVersionMsg (JSVal.num mv))) := by
  have hmv' : isVersionOne (JSVal.num mv) = false := by
    simpa [isVersionOne] using hmv
  constructor
  · rw [parseCB_envelope]
    simp [hp, hver]
  · obtain ⟨j, rfl⟩ : ∃ j, n = j + 8 := ⟨n - 8, by omega⟩
    have hnode := parseEnvelopeNode s rev s.conf.serializedObjectIdentifier t
      mv wp "" j hplain (by omega)
    simp [parse, hnode, parseCB_envelope, hp, hmv']

/-- C2 witness: with the boolean plugin registered, a version-2 envelope of
type `Boolean` aborts the parse with the unsupported-version error. -/
theorem C2_witness :
    parseCB boolS none "k"
      (mkEnvelopeV "_@serialized-object" (JSVal.num 2) "Boolean" (JSVal.str "T")) =
      Except.error (unsupportedVersionMsg (JSVal.num 2)) ∧
    parse boolS none 10
      (mkEnvelopeV "_@serialized-object" (JSVal.num 2) "Boolean" (JSVal.str "T")) =
      Except.error (parseErrMsg (unsupportedVersionMsg (JSVal.num 2))) :=
  C2_version_gate_requires_plugin boolS none boolPlugin "Boolean"
    (JSVal.num 2) (JSVal.str "T") (JSVal.str "T") "k" 2 10
    rfl rfl rfl rfl (by decide)

/-- C5: an envelope whose type has no registered plugin decodes to its raw
inner value — for any version field and any installed reviver — and a whole
parse over such an envelope completes normally with that value. -/
theorem C5_missing_plugin_degrades (s : BetterJSONSerializer)
    (rev : Option Hook) (k : String) (ver w wp : JSVal) (t : String)
    (mv : Int) (n : Nat)
    (hnone : mapGet s.plugins t = none)
    (hplain : plainWire s wp = true)
    (hn : dV wp + 8 ≤ n) :
    parseCB s rev k (mkEnvelopeV s.conf.serializedObjectIdentifier ver t w) =
      Except.ok w ∧
    parse s rev n (mkEnvelopeV s.conf.serializedObjectIdentifier (JSVal.num mv) t wp) =
      Except.ok wp := by
  constructor
  · rw [parseCB_envelope]
    simp [hnone]
  · obtain ⟨j, rfl⟩ : ∃ j, n = j + 8 := ⟨n - 8, by omega⟩
    have hnode := parseEnvelopeNode s rev s.conf.serializedObjectIdentifier t
      mv wp "" j hplain (by omega)
    simp [parse, hnode, parseCB_envelope, hnone]

/-- C5 witness: an envelope of the unregistered type `Widget` decodes to its
raw inner string, at the node level and through a whole parse. -/
theorem C5_witness :
    parseCB emptySerializer (some markHook) "k"
      (mkEnvelopeV "_@serialized-object" (JSVal.num 1) "Widget" (JSVal.str "x")) =
      Except.ok (JSVal.str "x") ∧
    parse emptySerializer (some markHook) 10
      (mkEnvelopeV "_@serialized-object" (JSVal.num 1) "Widget" (JSVal.str "x")) =
      Except.ok (JSVal.str "x") :=
  C5_missing_plugin_degrades emptySerializer (some markHook) "k"
    (JSVal.num 1) (JSVal.str "x") (JSVal.str "x") "Widget" 1 10
    rfl rfl (by decide)

/-- C9: the user reviver runs exactly on values a registered plugin just
decoded from an envelope: a node that fails the envelope gate and an
envelope whose type has no plugin are returned with the same result for
every reviver (so the reviver is never consulted), while a successful plugin
decode hands its result to the reviver and the reviver's output becomes the
node's value. -/
theorem C9_reviver_only_on_decoded (s : BetterJSONSerializer) (k : String)
    (v w d d2 : JSVal) (ver : JSVal) (t : String) (p : Plugin) (r : Hook) :
    (isSerializedShape s v = false →
        ∀ rev : Option Hook, parseCB s rev k v = Except.ok v) ∧
    (mapGet s.plugins t = none → ∀ rev : Option Hook,
        parseCB s rev k (mkEnvelopeV s.conf.serializedObjectIdentifier ver t w) =
          Except.ok w) ∧
    (mapGet s.plugins t = some p → isVersionOne ver = true →
        p.deserialize k w = Except.ok d → r k d = Except.ok d2 →
        parseCB s (some r) k (mkEnvelopeV s.conf.serializedObjectIdentifier ver t w) =
          Except.ok d2) := by
  refine ⟨fun hshape rev => ?_, fun hnone rev => ?_, fun hp hv1 hde hr => ?_⟩
  · simp [parseCB, hshape]
  · rw [parseCB_envelope]
    simp [hnone]
  · rw [parseCB_envelope]
    simp [hp, hv1, hde, hr]

/-- C9 witness: the reviver does not touch a plain string node nor the raw
value of an unregistered envelope, and it does transform the output of a
successful plugin decode. -/
theorem C9_witness :
    parseCB boolS (some markHook) "k" (JSVal.str "s") = Except.ok (JSVal.str "s") ∧
    parseCB boolS (some markHook) "k"
      (mkEnvelopeV "_@serialized-object" (JSVal.num 1) "Widget" (JSVal.str "raw")) =
      Except.ok (JSVal.str "raw") ∧
    parseCB boolS (some markHook) "k"
      (mkEnvelopeV "_@serialized-object" (JSVal.num 1) "Boolean" (JSVal.str "T")) =
      Except.ok (JSVal.str "revived") :=
  ⟨(C9_reviver_only_on_decoded boolS "k" (JSVal.str "s") JSVal.null JSVal.null
      JSVal.null (JSVal.num 1) "Widget" boolPlugin markHook).1 rfl (some markHook),
    (C9_reviver_only_on_decoded boolS "k" JSVal.null (JSVal.str "raw")
      JSVal.null JSVal.null (JSVal.num 1) "Widget" boolPlugin markHook).2.1
      rfl (some markHook),
    (C9_reviver_only_on_decoded boolS "k" JSVal.null (JSVal.str "T")
      (JSVal.boolean true) (JSVal.str "revived") (JSVal.num 1) "Boolean"
      boolPlugin markHook).2.2 rfl rfl rfl rfl⟩

/-- C8 counterexample: a replacer hook that throws with the message `BOOM`
makes `stringify` raise an error that identifies the key but whose message
nowhere contains `BOOM` — the original failure's message is replaced, not
chained. -/
theorem C8_counterexample :
    stringify emptySerializer (some boomHook) 5 (JSVal.num 1) =
      Except.error (stringifyErrMsg (replacerErrMsg "" (JSVal.num 1))) ∧
    containsChars "BOOM".toList
      (stringifyErrMsg (replacerErrMsg "" (JSVal.num 1))).toList = false ∧
    containsChars "ENCBOOM".toList
      (serializeTypeErrMsg "F" "ENCBOOM").toList = true :=
  ⟨rfl, by decide, by decide⟩

/-- C8 (amended): a failing plugin `serialize`/`deserialize` raises an error
that chains the original message after the offending type, but a failing
replacer or reviver hook raises an error that only identifies the offending
key and value — the hook's own message is dropped. -/
theorem C8_plugin_errors_chain_hook_errors_do_not (s : BetterJSONSerializer)
    (k : String) (v w d : JSVal) (ver : JSVal) (t : String) (p : Plugin)
    (r : Hook) (e : String) (n : Nat) :
    (r k v = Except.error e →
        strNode s (some r) (n + 1) k v = Except.error (replacerErrMsg k v)) ∧
    (∃ pre post, replacerErrMsg k v = pre ++ k ++ post) ∧
    (mapGet s.plugins (classify v) = some p → p.serialize k v = Except.error e →
        strNode s none (n + 1) k v =
          Except.error (serializeTypeErrMsg (classify v) e)) ∧
    (∃ pre, serializeTypeErrMsg (classify v) e = pre ++ e) ∧
    (mapGet s.plugins t = some p → isVersionOne ver = true →
        p.deserialize k w = Except.error e →
        parseCB s (some r) k (mkEnvelopeV s.conf.serializedObjectIdentifier ver t w) =
          Except.error (deserializeTypeErrMsg t e)) ∧
    (∃ pre, deserializeTypeErrMsg t e = pre ++ e) ∧
    (mapGet s.plugins t = some p → isVersionOne ver = true →
        p.deserialize k w = Except.ok d → r k d = Except.error e →
        parseCB s (some r) k (mkEnvelopeV s.conf.serializedObjectIdentifier ver t w) =
          Except.error (reviverErrMsg k d)) ∧
    (∃ pre post, reviverErrMsg k d = pre ++ k ++ post) := by
  refine ⟨fun hre => ?_,
    ⟨"An error occured while calling the replacer function on key='",
      "' and '" ++ jsString v ++ "'.",
      by simp [replacerErrMsg, String.append_assoc]⟩,
    fun hp hse => ?_, ?_, fun hp hv1 hde => ?_, ?_, fun hp hv1 hde hr => ?_,
    ⟨"An error occured while calling the reviver function on key='",
      "' and '" ++ jsString d ++ "'.",
      by simp [reviverErrMsg, String.append_assoc]⟩⟩
  · rw [strNode_succ]
    simp [applyReplacer, hre]
  · rw [strNode_succ]
    simp [applyReplacer, hp, hse]
  · exact ⟨"Error while serializing type '" ++ classify v ++ "'.\n\n",
      by simp [serializeTypeErrMsg, String.append_assoc]⟩
  · rw [parseCB_envelope]
    simp [hp, hv1, hde]
  · exact ⟨"Error while deserializing type '" ++ t ++ "'.\n\n",
      by simp [deserializeTypeErrMsg, String.append_assoc]⟩
  · rw [parseCB_envelope]
    simp [hp, hv1, hde, hr]

/-- C8 witness: the four error paths at concrete inputs — hook failures
yield the fixed key-bearing messages, plugin failures carry the plugin's
message. -/
theorem C8_witness :
    strNode emptySerializer (some boomHook) 5 "k" (JSVal.num 1) =
      Except.error (replacerErrMsg "k" (JSVal.num 1)) ∧
    strNode failS none 5 "k" (JSVal.ext "F" JSVal.null) =
      Except.error (serializeTypeErrMsg "F" "ENCBOOM") ∧
    parseCB failS (some boomHook) "k"
      (mkEnvelopeV "_@serialized-object" (JSVal.num 1) "F" (JSVal.str "x")) =
      Except.error (deserializeTypeErrMsg "F" "DECBOOM") ∧
    parseCB boolS (some boomHook) "k"
      (mkEnvelopeV "_@serialized-object" (JSVal.num 1) "Boolean" (JSVal.str "T")) =
      Except.error (reviverErrMsg "k" (JSVal.boolean true)) :=
  ⟨(C8_plugin_errors_chain_hook_errors_do_not emptySerializer "k" (JSVal.num 1)
      JSVal.null JSVal.null (JSVal.num 1) "F" failPlugin boomHook "BOOM" 4).1 rfl,
    (C8_plugin_errors_chain_hook_errors_do_not failS "k" (JSVal.ext "F" JSVal.null)
      JSVal.null JSVal.null (JSVal.num 1) "F" failPlugin boomHook "ENCBOOM" 4).2.2.1
      rfl rfl,
    (C8_plugin_errors_chain_hook_errors_do_not failS "k" JSVal.null
      (JSVal.str "x") JSVal.null (JSVal.num 1) "F" failPlugin boomHook "DECBOOM" 4).2.2.2.2.1
      rfl rfl rfl,
    (C8_plugin_errors_chain_hook_errors_do_not boolS "k" JSVal.null
      (JSVal.str "T") (JSVal.boolean true) (JSVal.num 1) "Boolean" boolPlugin
      boomHook "BOOM" 4).2.2.2.2.2.2.1 rfl rfl rfl rfl⟩

/-- C1 counterexample: a plugin whose decode inverts its encode at the value
being serialized (and on every boolean it owns) for which the round trip
still fails, because the encode output `NaN` is not representable by the
format layer and reaches decode as `null`. -/
theorem C1_counterexample :
    mapGet nanBoolS.plugins (classify (JSVal.boolean true)) = some nanBoolPlugin ∧
    nanBoolPlugin.serialize "" (JSVal.boolean true) = Except.ok JSVal.nan ∧
    nanBoolPlugin.deserialize "" JSVal.nan = Except.ok (JSVal.boolean true) ∧
    nanBoolPlugin.serialize "" (JSVal.boolean false) = Except.ok JSVal.null ∧
    nanBoolPlugin.deserialize "" JSVal.null = Except.ok (JSVal.boolean false) ∧
    stringify nanBoolS none 12 (JSVal.boolean true) =
      Except.ok (some (mkEnvelopeV "_@serialized-object" (JSVal.num 1) "Boolean" JSVal.null)) ∧
    parse nanBoolS none 12
      (mkEnvelopeV "_@serialized-object" (JSVal.num 1) "Boolean" JSVal.null) =
      Except.ok (JSVal.boolean false) ∧
    boolObs (JSVal.boolean true) = true ∧
    boolObs (JSVal.boolean false) = false :=
  ⟨rfl, rfl, rfl, rfl, rfl, rfl, rfl, rfl, rfl⟩

/-- C1 (amended): for a value owned by a registered plugin whose decode
inverts its encode at that value, the parse of the stringify result returns
the value — provided additionally that the encoded payload is plain wire
data (no `undefined`, non-finite numbers or extension values, no node
claimed by a plugin, no envelope-shaped object) and that no plugin claims
the envelope scaffolding types `Object`, `Number` and `String`. -/
theorem C1_roundtrip_of_inverse_plugin (s : BetterJSONSerializer) (p : Plugin)
    (v payload : JSVal) (n m : Nat)
    (hplug : mapGet s.plugins (classify v) = some p)
    (henc : p.serialize "" v = Except.ok payload)
    (hplain : plainWire s payload = true)
    (hdec : p.deserialize "" payload = Except.ok v)
    (hObj : mapGet s.plugins "Object" = none)
    (hNum : mapGet s.plugins "Number" = none)
    (hStr : mapGet s.plugins "String" = none)
    (hn : dV payload + 9 ≤ n) (hm : dV payload + 8 ≤ m) :
    stringify s none n v =
      Except.ok (some (mkEnvelope s.conf.serializedObjectIdentifier (classify v) payload)) ∧
    parse s none m (mkEnvelope s.conf.serializedObjectIdentifier (classify v) payload) =
      Except.ok v := by
  constructor
  · obtain ⟨j, rfl⟩ : ∃ j, n = j + 9 := ⟨n - 9, by omega⟩
    have henv := strEnvelope s s.conf.serializedObjectIdentifier (classify v)
      payload j hObj hNum hStr hplain (by omega)
    simp only [stringify, strNode_succ, applyReplacer]
    simp [hplug, henc, henv]
  · obtain ⟨j, rfl⟩ : ∃ j, m = j + 8 := ⟨m - 8, by omega⟩
    have hnode := parseEnvelopeNode s none s.conf.serializedObjectIdentifier
      (classify v) 1 payload "" j hplain (by omega)
    simp only [mkEnvelope] at hnode ⊢
    simp [parse, hnode, parseCB_envelope, hplug, isVersionOne, hdec]

/-- C1 witness: the boolean plugin (decode inverts encode, payload is a
plain string) round-trips `true` through stringify and parse. -/
theorem C1_witness :
    stringify boolS none 11 (JSVal.boolean true) =
      Except.ok (some (mkEnvelope "_@serialized-object" "Boolean" (JSVal.str "T"))) ∧
    parse boolS none 10 (mkEnvelope "_@serialized-object" "Boolean" (JSVal.str "T")) =
      Except.ok (JSVal.boolean true) :=
  C1_roundtrip_of_inverse_plugin boolS boolPlugin (JSVal.boolean true)
    (JSVal.str "T") 11 10 rfl rfl rfl rfl rfl rfl rfl (by decide) (by decide)

end BetterJSON
